import Mathlib

/-!
# Verifactura — verification of the document-extraction orchestrator

Shallow embedding of the Verifactura repository (FastAPI service that extracts
structured fields from vehicular invoices).  Embedded source files:

* `app/services/extraction_service.py` — `ExtractionService` (routing, OCR
  fallback, caches, provenance)
* `app/services/pdf_service.py` — `PDFTextExtractor.render_page_images` /
  `_extract_embedded_images`
* `app/services/llm_service.py` — `OpenAILLMService.extract` (request shape and
  accepted parameters)
* `app/routes/extract.py` — the `/extract/text` endpoint validation
* `app/routes/predictions.py` — `PredictionRequest` numeric parsing

External collaborators (PyPDF2, Azure OCR, pdf2image/PyMuPDF renderers,
`mimetypes`, base64, the LLM network call) are modelled as fields of an
`Ext`/function parameter: the embedding is parametric in their behaviour and
records each OCR and LLM invocation as an explicit `Event`, so "never invokes
the OCR client" style properties are statements about the event trace.

Bytes are modelled as `List Nat`.  `bytes.decode("utf-8", errors="replace")`
is modelled byte-per-char (total, faithful on ASCII; the semantics used by the
code — emptiness of the decoded text — is preserved exactly).  Python floats
are modelled as `ℚ` (all numerals appearing in the claims are exact decimals).
-/

namespace Verifactura

/-- Byte strings (`bytes`) as lists of byte values. -/
abbrev Bytes := List Nat

/-- Python `str.lower()` (ASCII-faithful). -/
def pyLower (s : String) : String := (s.data.map Char.toLower).asString

/-- The whitespace characters `str.strip()` removes (ASCII subset). -/
def isPyWs (c : Char) : Bool :=
  c = ' ' || c = '\t' || c = '\n' || c = '\r' || c = '\x0b' || c = '\x0c'

/-- Python `str.strip()` with no argument. -/
def pyStrip (s : String) : String :=
  ((s.data.dropWhile isPyWs).reverse.dropWhile isPyWs).reverse.asString

/-- Python `str.startswith`. -/
def strStartsWith (s pre : String) : Bool :=
  s.data.take pre.data.length = pre.data

/-- Python truthiness of an `Optional[str]`: `None` and `""` are falsy. -/
def truthy : Option String → Bool
  | none => false
  | some s => s ≠ ""

/-- Python `x or y` for `x : Optional[str]`, `y : str`. -/
def orElseStr : Option String → String → String
  | none, y => y
  | some s, y => if s = "" then y else s

/-- Index of the last occurrence of `c` in `s` (`str.rfind` when found). -/
def strRFind (s : String) (c : Char) : Option Nat :=
  match s.data.reverse.indexOf? c with
  | none => none
  | some j => some (s.length - 1 - j)

/-- Python `str.rfind`: index of last occurrence, `-1` when absent. -/
def strRFindI (s : String) (c : Char) : Int :=
  match strRFind s c with
  | some i => (i : Int)
  | none => -1

/-- Final path component (`pathlib.Path(...).name`: the part after the last
`/`; POSIX separators, no trailing separator). -/
def pathName (filename : String) : String :=
  (filename.data.reverse.takeWhile (fun c => c ≠ '/')).reverse.asString

/-- `pathlib.Path(filename).suffix` (CPython: last dot of the name, provided it
is neither leading nor trailing). -/
def pathSuffix (filename : String) : String :=
  let name := pathName filename
  match strRFind name '.' with
  | some i => if 0 < i && i < name.length - 1 then (name.data.drop i).asString else ""
  | none => ""

/-- `Path(filename).suffix.lower()` as used throughout `extraction_service.py`. -/
def pathSuffixLower (filename : String) : String := pyLower (pathSuffix filename)

/-- `data.decode("utf-8", errors="replace")`: total decode, modelled byte-per
character (empty iff the input bytes are empty, which is the only property the
embedded code inspects). -/
def decodeUtf8Replace (data : Bytes) : String :=
  (data.map (fun b => Char.ofNat b)).asString

/-- `IMAGE_EXTENSIONS` from `extraction_service.py`. -/
def IMAGE_EXTENSIONS : List String := [".png", ".jpg", ".jpeg", ".tif", ".tiff"]

/-- `TEXT_EXTENSIONS` from `extraction_service.py`. -/
def TEXT_EXTENSIONS : List String := [".json"]

/-- `XML_EXTENSIONS` from `extraction_service.py`. -/
def XML_EXTENSIONS : List String := [".xml"]

/-- `PDF_EXTENSIONS` from `extraction_service.py`. -/
def PDF_EXTENSIONS : List String := [".pdf"]

theorem decodeUtf8Replace_eq_empty_iff (data : Bytes) :
    decodeUtf8Replace data = "" ↔ data = [] := by
  constructor
  · intro h
    have hd : data.map (fun b => Char.ofNat b) = [] := by
      have := congrArg String.data h
      simpa [decodeUtf8Replace, List.asString] using this
    simpa using hd
  · intro h
    subst h
    rfl

/-! ## Data model (`extraction_service.py`) -/

/-- `text_origin` literal `{"input", "file", "ocr"}`. -/
inductive Origin
  | input
  | file
  | ocr
  deriving Repr, DecidableEq

/-- Structured fields returned by an LLM client (`Dict[str, object]`; the
orchestrator treats the dictionary as opaque). -/
abbrev Fields := List (String × Option String)

/-- `ExtractionResult` dataclass. -/
structure ExtractionResult where
  fields : Fields
  rawText : String
  textOrigin : Origin
  deriving Repr, DecidableEq

/-- Vision payload entries built by `_encode_vision_images`
(`{"media_type": ..., "data": base64}`). -/
structure VisionImage where
  mediaType : String
  b64Data : String
  deriving Repr, DecidableEq

/-- Error kinds of the `RuntimeError`s / `HTTPException`s raised by the
embedded code paths. -/
inductive Err
  | invalidInput
  | unsupportedImage
  | ocrNotConfigured
  | ocrEmptyImage
  | ocrPdfFailed
  | pdfReadError
  | providerUnavailable
  deriving Repr, DecidableEq

/-- Observable side effects of a run: each call of an OCR client's
`extract_text` and each call of an LLM client's `extract`. -/
inductive Event
  | ocrCall (data : Bytes) (contentType : Option String)
  | llmCall (text : String) (vision : Option (List VisionImage))
  deriving Repr, DecidableEq

/-- Per-call LLM generation options forwarded by the orchestrator. -/
structure LlmArgs where
  model : Option String
  temperature : Option ℚ
  topP : Option ℚ
  reasoningEffort : Option String
  frequencyPenalty : Option ℚ
  presencePenalty : Option ℚ
  apiKey : Option String
  deriving Repr, DecidableEq

/-- Behaviour of an LLM client's `extract` as the orchestrator expects it
(provider key, text, options, vision images ↦ structured fields). -/
abbrev LlmFun := String → String → LlmArgs → Option (List VisionImage) → Fields

/-- External collaborators of the orchestrator (PyPDF2, renderers, Azure OCR,
`mimetypes.guess_type`, `base64.b64encode`), modelled as pure functions. -/
structure Ext where
  pdfReadText : Bytes → Except Unit String
  renderPageImages : Bytes → List (Bytes × String)
  ocrExtractText : Bytes → Option String → String
  guessType : String → Option String
  b64 : Bytes → String

/-- Relevant part of `Config` (`AZURE_ENDPOINT` / `AZURE_KEY`). -/
structure Config where
  azureEndpoint : Option String
  azureKey : Option String
  deriving Repr, DecidableEq

/-- `Config.azure_configured`. -/
def Config.azureConfigured (cfg : Config) : Bool :=
  truthy cfg.azureEndpoint && truthy cfg.azureKey

/-- OCR cache key: the `(provider, endpoint, key)` tuple. -/
abbrev OcrKey := String × String × String

/-- Mutable OCR-client cache of an `ExtractionService` instance.  Distinct
live `AzureOCRService` instances are identified by the order in which they
were constructed (`nextId` is the id the next construction would get). -/
structure OcrState where
  cache : List (OcrKey × Nat)
  nextId : Nat
  deriving Repr, DecidableEq

/-- Lookup in the cache dictionary. -/
def cacheGet (cache : List (OcrKey × Nat)) (k : OcrKey) : Option Nat :=
  match cache.find? (fun e => e.1 = k) with
  | some e => some e.2
  | none => none

/-- `ExtractionService.__init__`: prebuilds the default Azure client when the
configuration provides endpoint and key, recording the default cache key. -/
def initOcr (cfg : Config) : OcrState × Option OcrKey :=
  if cfg.azureConfigured then
    let e := pyStrip (cfg.azureEndpoint.getD "")
    let k := pyStrip (cfg.azureKey.getD "")
    if e ≠ "" && k ≠ "" then
      (⟨[(("azure", e, k), 0)], 1⟩, some ("azure", e, k))
    else
      (⟨[], 0⟩, none)
  else
    (⟨[], 0⟩, none)

/-- Key-resolution part of `ExtractionService._resolve_ocr_service` (lines
100–119): normalization, fallback to the instance default, provider check and
endpoint/key completion from the configuration. -/
def resolveOcrKey (cfg : Config) (defaultKey : Option OcrKey)
    (provider endpoint key : Option String) : Except Err OcrKey :=
  let np := pyLower (pyStrip (provider.getD ""))
  let ne := endpoint.map pyStrip
  let nk := key.map pyStrip
  let chosen : Except Err (String × Option String × Option String) :=
    if np = "" then
      if !truthy ne && !truthy nk then
        match defaultKey with
        | none => .error .ocrNotConfigured
        | some (p, e, k) => .ok (p, some e, some k)
      else
        .ok ("azure", ne, nk)
    else
      .ok (np, ne, nk)
  match chosen with
  | .error er => .error er
  | .ok (p, e, k) =>
    if p = "azure" || p = "azure-vision" then
      let fe := orElseStr e (pyStrip (cfg.azureEndpoint.getD ""))
      let fk := orElseStr k (pyStrip (cfg.azureKey.getD ""))
      if fe = "" || fk = "" then .error .ocrNotConfigured
      else .ok ("azure", fe, fk)
    else
      .error .providerUnavailable

/-- `ExtractionService._resolve_ocr_service`: resolve the cache key, then
reuse the cached client or construct (and cache) a fresh one. -/
def resolveOcrService (cfg : Config) (defaultKey : Option OcrKey)
    (st : OcrState) (provider endpoint key : Option String) :
    Except Err (Nat × OcrState) :=
  match resolveOcrKey cfg defaultKey provider endpoint key with
  | .error er => .error er
  | .ok ck =>
    match cacheGet st.cache ck with
    | some i => .ok (i, st)
    | none => .ok (st.nextId, ⟨(ck, st.nextId) :: st.cache, st.nextId + 1⟩)

/-! ## Extraction pipeline (`extraction_service.py`) -/

/-- `ExtractionService._needs_ocr`. -/
def needsOcr (extension text : String) : Bool :=
  if IMAGE_EXTENSIONS.contains extension then true
  else if PDF_EXTENSIONS.contains extension && text = "" then true
  else false

/-- `ExtractionService._normalize_image_media_type` (byte-signature sniffing). -/
def normalizeImageMediaType (data : Bytes) (contentType : Option String) : String :=
  let normalized := pyLower (contentType.getD "")
  if strStartsWith normalized "image/" then normalized
  else if data.take 3 = [0xff, 0xd8, 0xff] then "image/jpeg"
  else if data.take 8 = [0x89, 0x50, 0x4e, 0x47, 0x0d, 0x0a, 0x1a, 0x0a] then "image/png"
  else if data.take 4 = [0x49, 0x49, 0x2a, 0x00] || data.take 4 = [0x4d, 0x4d, 0x00, 0x2a] then
    "image/tiff"
  else "image/png"

/-- Loop of `ExtractionService._encode_vision_images`: skip empty payloads,
encode, stop once `limit` entries are collected. -/
def encodeVisionGo (b64 : Bytes → String) (limit : Nat) :
    List (Bytes × Option String) → List VisionImage → List VisionImage
  | [], acc => acc
  | (d, mt) :: rest, acc =>
    if d = [] then encodeVisionGo b64 limit rest acc
    else
      let acc' := acc ++ [⟨normalizeImageMediaType d mt, b64 d⟩]
      if limit ≤ acc'.length then acc' else encodeVisionGo b64 limit rest acc'

/-- `ExtractionService._encode_vision_images` (`encoded or None`). -/
def encodeVisionImages (b64 : Bytes → String) (limit : Nat)
    (images : List (Bytes × Option String)) : Option (List VisionImage) :=
  let encoded := encodeVisionGo b64 limit images []
  if encoded = [] then none else some encoded

/-- `ExtractionService._extract_text_from_pdf_with_ocr`, for a resolved OCR
client (the orchestrator always passes one; the `None` guard of the source is
therefore not reachable in the embedded flows): direct OCR over the PDF
bytes, then per-rendered-page OCR, retrying raw OCR when rendering yields
nothing. -/
def extractTextFromPdfWithOcr (ext : Ext) (data : Bytes) :
    Except Err String × List Event :=
  let ct : Option String := some "application/pdf"
  let t := ext.ocrExtractText data ct
  let ev0 := [Event.ocrCall data ct]
  if t ≠ "" then (.ok t, ev0)
  else
    let images := ext.renderPageImages data
    if images = [] then
      let t2 := ext.ocrExtractText data ct
      let ev := ev0 ++ [Event.ocrCall data ct]
      if t2 ≠ "" then (.ok t2, ev) else (.error .ocrPdfFailed, ev)
    else
      let ev := ev0 ++ images.map (fun p => Event.ocrCall p.1 (some p.2))
      let fragments := images.map (fun p => ext.ocrExtractText p.1 (some p.2))
      let pieces := (fragments.map pyStrip).filter (· ≠ "")
      let joined := String.intercalate "\n\n" pieces
      if joined = "" then (.error .ocrPdfFailed, ev) else (.ok joined, ev)

/-- `ExtractionService._extract_text_from_file` with a resolved OCR client:
route on extension/content type (PDF → direct read then OCR fallback, or
forced OCR; JSON/XML → UTF-8 decode; otherwise raw OCR with a possibly
guessed content type). -/
def extractTextFromFile (ext : Ext) (filename : String) (data : Bytes)
    (contentType : Option String) (forceOcr : Bool) :
    Except Err String × List Event :=
  let suffix := pathSuffixLower filename
  let nct := pyLower (contentType.getD "")
  if PDF_EXTENSIONS.contains suffix || nct = "application/pdf" then
    if forceOcr then extractTextFromPdfWithOcr ext data
    else
      match ext.pdfReadText data with
      | .error _ => (.error .pdfReadError, [])
      | .ok t => if t ≠ "" then (.ok t, []) else extractTextFromPdfWithOcr ext data
  else if TEXT_EXTENSIONS.contains suffix || XML_EXTENSIONS.contains suffix then
    (.ok (decodeUtf8Replace data), [])
  else
    let nct2 : Option String :=
      if nct = "" then (ext.guessType filename).map pyLower else some nct
    (.ok (ext.ocrExtractText data nct2), [Event.ocrCall data nct2])

/-- LLM providers registered by `ExtractionService.__init__`
(`_llm_factories`), with `"api"` the default provider. -/
def LLM_PROVIDERS : List String := ["api", "local"]

/-- `ExtractionService.extract_from_text`: resolve the LLM client
(`_get_llm`), trim the model override, call the client, and wrap the reply
with the unmodified input text and the requested provenance. -/
def extractFromText (llm : LlmFun) (provider : Option String) (text : String)
    (args : LlmArgs) (vision : Option (List VisionImage)) (origin : Origin) :
    Except Err ExtractionResult × List Event :=
  let key := pyLower (provider.getD "api")
  if LLM_PROVIDERS.contains key then
    let args' := { args with model := args.model.map pyStrip }
    (.ok ⟨llm key text args' vision, text, origin⟩, [Event.llmCall text vision])
  else
    (.error .providerUnavailable, [])

/-- Dynamic return value of the Python entry points: the annotated
`ExtractionResult`, or — on the PDF branch of `extract_from_image` — the bare
string produced by `_extract_text_from_pdf_with_ocr` (line 318 returns it
without wrapping). -/
inductive PyRet
  | res (r : ExtractionResult)
  | rawStr (s : String)
  deriving Repr, DecidableEq

/-- Outcome of `extract_from_image` before the final LLM step. -/
inductive ImageCoreOut
  | pdfText (s : String)
  | image (text : String) (vision : Option (List VisionImage))
  deriving Repr, DecidableEq

/-- `ExtractionService.extract_from_image`, lines 305–330 (everything up to
the `extract_from_text` delegation): resolve OCR, normalize the content type,
route PDFs to `_extract_text_from_pdf_with_ocr`, validate image formats, OCR
the image and encode the single vision attachment. -/
def extractFromImageCore (ext : Ext) (cfg : Config) (defaultKey : Option OcrKey)
    (st : OcrState) (filename : String) (data : Bytes)
    (contentType : Option String) (ocrProvider ocrEndpoint ocrKey : Option String) :
    Except Err ImageCoreOut × List Event × OcrState :=
  match resolveOcrService cfg defaultKey st ocrProvider ocrEndpoint ocrKey with
  | .error e => (.error e, [], st)
  | .ok (_i, st1) =>
    let suffix := pathSuffixLower filename
    let ct : Option String :=
      if truthy contentType then contentType.map pyLower
      else (ext.guessType filename).map pyLower
    if PDF_EXTENSIONS.contains suffix || ct = some "application/pdf" then
      match extractTextFromPdfWithOcr ext data with
      | (.error e, ev) => (.error e, ev, st1)
      | (.ok s, ev) => (.ok (.pdfText s), ev, st1)
    else if suffix ≠ "" && !IMAGE_EXTENSIONS.contains suffix
        && !strStartsWith (ct.getD "") "image/" then
      (.error .unsupportedImage, [], st1)
    else
      let text := ext.ocrExtractText data ct
      let ev0 := [Event.ocrCall data ct]
      if text = "" then (.error .ocrEmptyImage, ev0, st1)
      else
        let vision := encodeVisionImages ext.b64 1 [(data, ct)]
        (.ok (.image text vision), ev0, st1)

/-- `ExtractionService.extract_from_image` (the `use_vision` parameter is
ignored: the source unconditionally sets `use_vision = True`).  On the PDF
branch the source returns the OCR text itself instead of an
`ExtractionResult` (`PyRet.rawStr`). -/
def extractFromImage (ext : Ext) (llm : LlmFun) (cfg : Config)
    (defaultKey : Option OcrKey) (st : OcrState) (filename : String)
    (data : Bytes) (contentType : Option String) (provider : Option String)
    (args : LlmArgs) (ocrProvider ocrEndpoint ocrKey : Option String) :
    Except Err PyRet × List Event × OcrState :=
  match extractFromImageCore ext cfg defaultKey st filename data contentType
      ocrProvider ocrEndpoint ocrKey with
  | (.error e, ev, st1) => (.error e, ev, st1)
  | (.ok (.pdfText s), ev, st1) => (.ok (.rawStr s), ev, st1)
  | (.ok (.image text vision), ev, st1) =>
    match extractFromText llm provider text args vision .ocr with
    | (.error e, ev2) => (.error e, ev ++ ev2, st1)
    | (.ok r, ev2) => (.ok (.res r), ev ++ ev2, st1)

/-- Vision attachments of `extract_from_file` (lines 432–438): only for PDF
suffixes when vision is requested; rendering is best effort. -/
def fileVision (ext : Ext) (suffix : String) (useVision1 : Bool)
    (data : Bytes) : Option (List VisionImage) :=
  if useVision1 && PDF_EXTENSIONS.contains suffix then
    encodeVisionImages ext.b64 3
      ((ext.renderPageImages data).map (fun p => (p.1, some p.2)))
  else none

/-- `ExtractionService.extract_from_file`, lines 397–438 for non-image
suffixes (text resolution, provenance, best-effort vision rendering):
produces the text handed to `extract_from_text`, its provenance and the
vision attachments.  `force_ocr` is dropped for non-PDF suffixes (line 397);
the direct read covers PDFs (embedded text) and JSON/XML (UTF-8 decode); OCR
is required when `force_ocr` is set, `_needs_ocr` holds, or no text was
obtained. -/
def extractFromFileCore (ext : Ext) (cfg : Config) (defaultKey : Option OcrKey)
    (st : OcrState) (filename : String) (data : Bytes)
    (contentType : Option String) (forceOcr useVision : Bool)
    (ocrProvider ocrEndpoint ocrKey : Option String) :
    Except Err (String × Origin × Option (List VisionImage)) × List Event × OcrState :=
  let suffix := pathSuffixLower filename
  let nct := pyLower (contentType.getD "")
  let allowVision := PDF_EXTENSIONS.contains suffix || IMAGE_EXTENSIONS.contains suffix
    || strStartsWith nct "image/" || nct = "application/pdf"
  let useVision1 := useVision && allowVision
  let forceOcr1 := forceOcr && PDF_EXTENSIONS.contains suffix
  let textRes : Except Err String :=
    if !forceOcr1 then
      if PDF_EXTENSIONS.contains suffix then
        match ext.pdfReadText data with
        | .error _ => .error .pdfReadError
        | .ok t => .ok t
      else if TEXT_EXTENSIONS.contains suffix || XML_EXTENSIONS.contains suffix then
        .ok (decodeUtf8Replace data)
      else .ok ""
    else .ok ""
  match textRes with
  | .error e => (.error e, [], st)
  | .ok text0 =>
    let step : Except Err (String × Origin) × List Event × OcrState :=
      if forceOcr1 || needsOcr suffix text0 || text0 = "" then
        match resolveOcrService cfg defaultKey st ocrProvider ocrEndpoint ocrKey with
        | .error e => (.error e, [], st)
        | .ok (_i, st1) =>
          match extractTextFromFile ext filename data contentType forceOcr1 with
          | (.error e, ev) => (.error e, ev, st1)
          | (.ok t, ev) => (.ok (t, .ocr), ev, st1)
      else
        (.ok (text0, .file), [], st)
    match step with
    | (.error e, ev, st1) => (.error e, ev, st1)
    | (.ok (text, origin), ev, st1) =>
      (.ok (text, origin, fileVision ext suffix useVision1 data), ev, st1)

/-- `ExtractionService.extract_from_file`: delegate image suffixes to
`extract_from_image` (line 378), otherwise resolve text/provenance/vision and
finish through `extract_from_text`. -/
def extractFromFile (ext : Ext) (llm : LlmFun) (cfg : Config)
    (defaultKey : Option OcrKey) (st : OcrState) (filename : String)
    (data : Bytes) (contentType : Option String) (forceOcr useVision : Bool)
    (provider : Option String) (args : LlmArgs)
    (ocrProvider ocrEndpoint ocrKey : Option String) :
    Except Err PyRet × List Event × OcrState :=
  if IMAGE_EXTENSIONS.contains (pathSuffixLower filename) then
    extractFromImage ext llm cfg defaultKey st filename data contentType provider
      args ocrProvider ocrEndpoint ocrKey
  else
    match extractFromFileCore ext cfg defaultKey st filename data contentType
        forceOcr useVision ocrProvider ocrEndpoint ocrKey with
    | (.error e, ev, st1) => (.error e, ev, st1)
    | (.ok (text, origin, vision), ev, st1) =>
      match extractFromText llm provider text args vision origin with
      | (.error e, ev2) => (.error e, ev ++ ev2, st1)
      | (.ok r, ev2) => (.ok (.res r), ev ++ ev2, st1)

/-! ## `/extract/text` endpoint (`app/routes/extract.py`) -/

/-- `_normalize_reasoning_effort`: `"none"` becomes `None` so the outgoing
request omits the parameter. -/
def normalizeReasoningEffort (value : Option String) : Option String :=
  if value = some "none" then none else value

/-- `_normalize_optional_string` (also `_normalize_api_key`). -/
def normalizeOptionalString (value : Option String) : Option String :=
  match value with
  | none => none
  | some s => let t := pyStrip s; if t = "" then none else some t

/-- `extract_from_text_endpoint`: reject input that is empty after trimming
(`HTTPException(400)`, kind `InvalidInput`), then delegate the trimmed text to
`ExtractionService.extract_from_text` with the default `text_origin="input"`
and the normalized per-call options. -/
def extractFromTextEndpoint (llm : LlmFun) (payloadText : String)
    (provider : Option String) (args : LlmArgs) :
    Except Err ExtractionResult × List Event :=
  let text := pyStrip payloadText
  if text = "" then (.error .invalidInput, [])
  else
    extractFromText llm provider text
      { args with
        reasoningEffort := normalizeReasoningEffort args.reasoningEffort,
        apiKey := normalizeOptionalString args.apiKey }
      none .input

/-! ## PDF rendering fallback chain (`app/services/pdf_service.py`)

The two rasterizing backends (`pdf2image`, PyMuPDF) and PyPDF2's parse of the
document structure are external; a `PdfDoc` records what each of them yields
for the given bytes: the rendered page lists of the two backends (empty when
the backend is missing, raises, or produces nothing) and, per page, the list
of embedded images PyPDF2 exposes via `page.images`. -/

/-- One embedded raster image of a PDF page (`page.images` entry). -/
structure EmbImage where
  data : Bytes
  width : Nat
  height : Nat
  imageFormat : String
  deriving Repr, DecidableEq

/-- A parsed PDF as seen through the external backends. -/
structure PdfDoc where
  pdf2imagePages : List (Bytes × String)
  pymupdfPages : List (Bytes × String)
  pages : List (List EmbImage)
  deriving Repr, DecidableEq

/-- `PDFTextExtractor._guess_image_content_type`. -/
def guessImageContentType (data : Bytes) (imageFormat : String) : String :=
  let fmt := pyLower imageFormat
  if fmt = "jpeg" || fmt = "jpg" || fmt = "jpe" then "image/jpeg"
  else if fmt = "png" then "image/png"
  else if fmt = "tif" || fmt = "tiff" then "image/tiff"
  else if fmt = "bmp" then "image/bmp"
  else if fmt = "gif" then "image/gif"
  else if data.take 8 = [0x89, 0x50, 0x4e, 0x47, 0x0d, 0x0a, 0x1a, 0x0a] then "image/png"
  else if data.take 3 = [0xff, 0xd8, 0xff] then "image/jpeg"
  else if data.take 4 = [0x49, 0x49, 0x2a, 0x00] || data.take 4 = [0x4d, 0x4d, 0x00, 0x2a] then
    "image/tiff"
  else "image/png"

/-- Pixel area of an embedded image (`int(width) * int(height)`). -/
def areaI (i : EmbImage) : Int := (i.width : Int) * (i.height : Int)

/-- Per-page loop of `PDFTextExtractor._extract_embedded_images`: keep the
first image whose pixel area strictly exceeds every area seen so far, skipping
empty payloads (`max_area` starts at `-1`). -/
def choosePageImage : List EmbImage → Option (Bytes × String) → Int → Option (Bytes × String)
  | [], chosen, _ => chosen
  | img :: rest, chosen, maxArea =>
    if img.data = [] then choosePageImage rest chosen maxArea
    else if areaI img ≤ maxArea then choosePageImage rest chosen maxArea
    else
      choosePageImage rest
        (some (img.data, guessImageContentType img.data img.imageFormat)) (areaI img)

/-- `PDFTextExtractor._extract_embedded_images`: the per-page winners, in page
order (pages without a usable image contribute nothing). -/
def extractEmbeddedImages (doc : PdfDoc) : List (Bytes × String) :=
  doc.pages.filterMap (fun page => choosePageImage page none (-1))

/-- `PDFTextExtractor.render_page_images`: first backend that yields pages
wins; embedded images are the last resort; no stage raises. -/
def renderPageImages (doc : PdfDoc) : List (Bytes × String) :=
  if doc.pdf2imagePages ≠ [] then doc.pdf2imagePages
  else if doc.pymupdfPages ≠ [] then doc.pymupdfPages
  else extractEmbeddedImages doc

/-! ## Hosted LLM client (`app/services/llm_service.py`) -/

/-- `SYSTEM_PROMPT` of `llm_service.py`. -/
def SYSTEM_PROMPT : String :=
  "Eres un asistente que extrae datos estructurados de documentos vehiculares. Responde únicamente con JSON válido que coincida con el esquema dado. Utiliza null cuando la información no esté presente."

/-- One chat message of the outgoing request. -/
structure ChatMessage where
  role : String
  content : String
  deriving Repr, DecidableEq

/-- Shape of the request `OpenAILLMService.extract` sends to
`chat.completions.create` (lines 89–105). -/
structure ChatRequest where
  model : String
  messages : List ChatMessage
  schemaName : String
  strict : Bool
  temperature : ℚ
  reasoningEffort : Option String
  deriving Repr, DecidableEq

/-- The request built by `OpenAILLMService.extract` for input `text`, given
the configured model and schema name: note the hardcoded `temperature=1` and
`reasoning_effort="minimal"`. -/
def openaiExtractRequest (svcModel schemaName text : String) : ChatRequest :=
  { model := svcModel
    messages := [⟨"system", SYSTEM_PROMPT⟩, ⟨"user", text⟩]
    schemaName := schemaName
    strict := true
    temperature := 1
    reasoningEffort := some "minimal" }

/-- Keyword-accepting parameter names of `OpenAILLMService.extract`
(`def extract(self, text: str)`, line 88). -/
def openaiExtractParams : List String := ["text"]

/-- `OpenAILLMService.extract` declares no `**kwargs` catch-all. -/
def openaiExtractHasVarKw : Bool := false

/-- Keyword arguments `ExtractionService.extract_from_text` passes to
`llm.extract` (lines 271–281). -/
def extractFromTextLlmKwargs : List String :=
  ["model", "temperature", "top_p", "reasoning_effort", "frequency_penalty",
   "presence_penalty", "api_key", "vision_images"]

/-- Keyword arguments the repository's own test
(`tests/test_llm_service.py`) passes to `OpenAILLMService.extract`. -/
def testLlmKwargs : List String := ["reasoning_effort", "api_key"]

/-- Python call compatibility: a call with the given keyword-argument names
binds iff the callee has a `**kwargs` catch-all or every name is a declared
parameter (otherwise `TypeError: unexpected keyword argument`). -/
def pyCallAccepts (params : List String) (hasVarKw : Bool)
    (kwargs : List String) : Bool :=
  hasVarKw || kwargs.all (fun k => params.contains k)

/-! ## `PredictionRequest` numeric parsing (`app/routes/predictions.py`) -/

/-- Python values reaching the `pre=True` validators: native numbers or
strings. -/
inductive PyVal
  | int (n : Int)
  | float (q : ℚ)
  | str (s : String)
  deriving Repr, DecidableEq

/-- Digits-to-number accumulator. -/
def natFromDigits (l : List Char) : Nat :=
  l.foldl (fun a c => a * 10 + (c.toNat - 48)) 0

/-- Exact value of a parsed decimal literal: signed mantissa and number of
fractional digits. -/
abbrev FixNum := Int × Nat

/-- The rational a parsed decimal literal denotes. -/
def ratOfFix (p : FixNum) : ℚ := (p.1 : ℚ) / (10 : ℚ) ^ p.2

/-- Python `float(candidate)` restricted to plain decimal literals
(`[sign] digits [. digits]`, at least one digit), returning the exact decimal
as mantissa and fractional length; every other shape — misplaced signs,
several dots, no digits — raises `ValueError` (`none`).  The candidates built
by `_parse_number` only contain digits, `-`, `.`. -/
def pyFloat (s : String) : Option FixNum :=
  let l := s.data
  let signed : Int × List Char :=
    match l with
    | '-' :: t => (-1, t)
    | '+' :: t => (1, t)
    | _ => (1, l)
  let intPart := signed.2.takeWhile Char.isDigit
  let rest := signed.2.drop intPart.length
  match rest with
  | [] =>
    if intPart = [] then none
    else some (signed.1 * (natFromDigits intPart : Int), 0)
  | '.' :: frac =>
    if frac.all Char.isDigit && (intPart ≠ [] || frac ≠ []) then
      some (signed.1 * ((natFromDigits intPart * 10 ^ frac.length + natFromDigits frac : Nat) : Int),
        frac.length)
    else none
  | _ => none

/-- `PredictionRequest._parse_number`: native numbers pass through; strings
are trimmed, spaces removed, filtered down to digits / `-` / `,` / `.`, the
decimal separator is the one of `,` `.` appearing last, and the result goes
through `float()`. -/
def parseNumber (v : PyVal) : Except String ℚ :=
  match v with
  | .int n => .ok (n : ℚ)
  | .float q => .ok q
  | .str s =>
    let cleaned := pyStrip s
    if cleaned = "" then .error "El valor no puede estar vacío."
    else
      let normalized := (cleaned.data.filter (fun c => c ≠ ' ')).asString
      let filtered :=
        (normalized.data.filter
          (fun ch => ch.isDigit || ch = '-' || ch = ',' || ch = '.')).asString
      if filtered = "" then .error "El valor no contiene dígitos."
      else
        let lastComma := strRFindI filtered ','
        let lastDot := strRFindI filtered '.'
        let candidate :=
          if lastDot < lastComma then
            ((filtered.data.filter (fun c => c ≠ '.')).map
              (fun c => if c = ',' then '.' else c)).asString
          else
            (filtered.data.filter (fun c => c ≠ ',')).asString
        match pyFloat candidate with
        | some p => .ok (ratOfFix p)
        | none => .error "No se pudo interpretar el número proporcionado."

/-- Python `round` (banker's rounding to the nearest integer). -/
def pyRound (q : ℚ) : Int :=
  let f := q.floor
  let frac := q - (f : ℚ)
  if frac < 1 / 2 then f
  else if (1 : ℚ) / 2 < frac then f + 1
  else if f % 2 = 0 then f else f + 1

/-- `PredictionRequest._coerce_float`: parse, then reject negatives. -/
def coerceFloat (v : PyVal) : Except String ℚ :=
  match parseNumber v with
  | .error e => .error e
  | .ok q =>
    if q < 0 then .error "El valor debe ser mayor o igual a cero." else .ok q

/-- `PredictionRequest._coerce_int`: parse, reject negatives, `int(round ·)`. -/
def coerceInt (v : PyVal) : Except String Int :=
  match parseNumber v with
  | .error e => .error e
  | .ok q =>
    if q < 0 then .error "El valor debe ser mayor o igual a cero."
    else .ok (pyRound q)

/-! ## Theorems -/

/-- Claim C9: `PredictionRequest` numeric parsing maps `"17.900,50"` to
`17900.50`, `"17 900,75"` to `17900.75` and `"25000"` to `25000.0`
(disambiguating the decimal separator by which of `.` or `,` appears last),
and both numeric validators reject every negative parsed value with a
validation error. -/
theorem prediction_numeric_parsing :
    parseNumber (.str "17.900,50") = .ok (17900.50 : ℚ)
    ∧ parseNumber (.str "17 900,75") = .ok (17900.75 : ℚ)
    ∧ parseNumber (.str "25000") = .ok (25000 : ℚ)
    ∧ ∀ v q, parseNumber v = .ok q → q < 0 →
        coerceFloat v = .error "El valor debe ser mayor o igual a cero."
        ∧ coerceInt v = .error "El valor debe ser mayor o igual a cero." := by
  have e1 : parseNumber (.str "17.900,50") = .ok (ratOfFix (1790050, 2)) := rfl
  have e2 : parseNumber (.str "17 900,75") = .ok (ratOfFix (1790075, 2)) := rfl
  have e3 : parseNumber (.str "25000") = .ok (ratOfFix (25000, 0)) := rfl
  refine ⟨?_, ?_, ?_, ?_⟩
  · rw [e1]
    exact congrArg Except.ok (by norm_num [ratOfFix])
  · rw [e2]
    exact congrArg Except.ok (by norm_num [ratOfFix])
  · rw [e3]
    exact congrArg Except.ok (by norm_num [ratOfFix])
  · intro v q hv hq
    constructor
    · simp [coerceFloat, hv, hq]
    · simp [coerceInt, hv, hq]

/-- Claim C9 witness: the negative-rejection clause at the concrete input
`"-5"`. -/
theorem prediction_numeric_parsing_witness :
    coerceFloat (.str "-5") = .error "El valor debe ser mayor o igual a cero."
    ∧ coerceInt (.str "-5") = .error "El valor debe ser mayor o igual a cero." := by
  have h5 : parseNumber (.str "-5") = .ok ((-5 : ℚ)) := by
    have h : parseNumber (.str "-5") = .ok (ratOfFix (-5, 0)) := rfl
    rw [h]
    exact congrArg Except.ok (by norm_num [ratOfFix])
  exact prediction_numeric_parsing.2.2.2 (.str "-5") (-5) h5 (by norm_num)

/-- Claim C2: contrary to the claim, the hosted client's
`OpenAILLMService.extract` accepts no per-call overrides: the keyword
arguments `extract_from_text` forwards (and the ones the repository's own
test passes) are rejected (`TypeError`), and the outgoing request always
carries `temperature=1` and the literal `reasoning_effort="minimal"` — a
reasoning effort of `"none"` is never omitted because no override can reach
the request. -/
theorem openai_extract_ignores_overrides :
    pyCallAccepts openaiExtractParams openaiExtractHasVarKw extractFromTextLlmKwargs = false
    ∧ pyCallAccepts openaiExtractParams openaiExtractHasVarKw testLlmKwargs = false
    ∧ ∀ m s t, (openaiExtractRequest m s t).reasoningEffort = some "minimal"
        ∧ (openaiExtractRequest m s t).temperature = 1 :=
  ⟨by decide, by decide, fun _ _ _ => ⟨rfl, rfl⟩⟩

/-- If `choosePageImage` returns a winner, either it is the accumulator (and
every usable image of the list has area at most the running maximum), or it
is an image of the list with maximal area among the usable ones, strictly
exceeding the running maximum. -/
theorem choosePageImage_spec (imgs : List EmbImage) (chosen : Option (Bytes × String))
    (m : Int) (c : Bytes × String) (h : choosePageImage imgs chosen m = some c) :
    (chosen = some c ∧ ∀ j ∈ imgs, j.data ≠ [] → areaI j ≤ m)
    ∨ (∃ i ∈ imgs, i.data ≠ []
        ∧ c = (i.data, guessImageContentType i.data i.imageFormat)
        ∧ m < areaI i ∧ ∀ j ∈ imgs, j.data ≠ [] → areaI j ≤ areaI i) := by
  induction imgs generalizing chosen m with
  | nil =>
    left
    exact ⟨h, by simp⟩
  | cons img rest ih =>
    by_cases hd : img.data = []
    · have h' : choosePageImage rest chosen m = some c := by
        simpa [choosePageImage, hd] using h
      rcases ih chosen m h' with ⟨he, hall⟩ | ⟨i, hi, hine, hc, hm, hall⟩
      · left
        refine ⟨he, ?_⟩
        intro j hj hjne
        rcases List.mem_cons.mp hj with rfl | hj'
        · exact absurd hd hjne
        · exact hall j hj' hjne
      · right
        refine ⟨i, List.mem_cons_of_mem _ hi, hine, hc, hm, ?_⟩
        intro j hj hjne
        rcases List.mem_cons.mp hj with rfl | hj'
        · exact absurd hd hjne
        · exact hall j hj' hjne
    · by_cases harea : areaI img ≤ m
      · have h' : choosePageImage rest chosen m = some c := by
          simpa [choosePageImage, hd, harea] using h
        rcases ih chosen m h' with ⟨he, hall⟩ | ⟨i, hi, hine, hc, hm, hall⟩
        · left
          refine ⟨he, ?_⟩
          intro j hj hjne
          rcases List.mem_cons.mp hj with rfl | hj'
          · exact harea
          · exact hall j hj' hjne
        · right
          refine ⟨i, List.mem_cons_of_mem _ hi, hine, hc, hm, ?_⟩
          intro j hj hjne
          rcases List.mem_cons.mp hj with rfl | hj'
          · exact le_trans harea (le_of_lt hm)
          · exact hall j hj' hjne
      · push_neg at harea
        have h' : choosePageImage rest
            (some (img.data, guessImageContentType img.data img.imageFormat))
            (areaI img) = some c := by
          simpa [choosePageImage, hd, not_le.mpr harea] using h
        rcases ih _ _ h' with ⟨he, hall⟩ | ⟨i, hi, hine, hc, hm, hall⟩
        · right
          refine ⟨img, List.mem_cons_self _ _, hd, (Option.some.inj he).symm, harea, ?_⟩
          intro j hj hjne
          rcases List.mem_cons.mp hj with rfl | hj'
          · exact le_refl _
          · exact hall j hj' hjne
        · right
          refine ⟨i, List.mem_cons_of_mem _ hi, hine, hc, lt_trans harea hm, ?_⟩
          intro j hj hjne
          rcases List.mem_cons.mp hj with rfl | hj'
          · exact le_of_lt hm
          · exact hall j hj' hjne

/-- If `choosePageImage` returns nothing, the accumulator was empty and every
usable image's area is bounded by the running maximum. -/
theorem choosePageImage_none (imgs : List EmbImage) (chosen : Option (Bytes × String))
    (m : Int) (h : choosePageImage imgs chosen m = none) :
    chosen = none ∧ ∀ i ∈ imgs, i.data ≠ [] → areaI i ≤ m := by
  induction imgs generalizing chosen m with
  | nil =>
    exact ⟨h, by simp⟩
  | cons img rest ih =>
    by_cases hd : img.data = []
    · have h' : choosePageImage rest chosen m = none := by
        simpa [choosePageImage, hd] using h
      obtain ⟨he, hall⟩ := ih chosen m h'
      refine ⟨he, ?_⟩
      intro j hj hjne
      rcases List.mem_cons.mp hj with rfl | hj'
      · exact absurd hd hjne
      · exact hall j hj' hjne
    · by_cases harea : areaI img ≤ m
      · have h' : choosePageImage rest chosen m = none := by
          simpa [choosePageImage, hd, harea] using h
        obtain ⟨he, hall⟩ := ih chosen m h'
        refine ⟨he, ?_⟩
        intro j hj hjne
        rcases List.mem_cons.mp hj with rfl | hj'
        · exact harea
        · exact hall j hj' hjne
      · have h' : choosePageImage rest
            (some (img.data, guessImageContentType img.data img.imageFormat))
            (areaI img) = none := by
          simpa [choosePageImage, hd, harea] using h
        obtain ⟨he, _⟩ := ih _ _ h'
        exact absurd he (by simp)

/-- If every image of the page has an empty payload, the loop returns its
accumulator unchanged. -/
theorem choosePageImage_all_empty (imgs : List EmbImage)
    (h : ∀ i ∈ imgs, i.data = []) (chosen : Option (Bytes × String)) (m : Int) :
    choosePageImage imgs chosen m = chosen := by
  induction imgs with
  | nil => rfl
  | cons img rest ih =>
    have hd : img.data = [] := h img (List.mem_cons_self _ _)
    rw [choosePageImage, if_pos hd]
    exact ih (fun i hi => h i (List.mem_cons_of_mem _ hi))

/-- Claim C7: when both rasterizing renderers yield nothing,
`render_page_images` falls back to embedded-image extraction: the result is
empty exactly when no page holds an embedded image with a non-empty payload
(an empty sequence, never an error), and every per-page winner it returns is
an embedded image of that page of maximal pixel area among the usable ones. -/
theorem render_page_images_fallback (doc : PdfDoc)
    (h1 : doc.pdf2imagePages = []) (h2 : doc.pymupdfPages = []) :
    (renderPageImages doc = [] ↔ ∀ p ∈ doc.pages, ∀ i ∈ p, i.data = [])
    ∧ (∀ p ∈ doc.pages, ∀ c, choosePageImage p none (-1) = some c →
        c ∈ renderPageImages doc
        ∧ ∃ i ∈ p, i.data ≠ [] ∧ c.1 = i.data
            ∧ ∀ j ∈ p, j.data ≠ [] → areaI j ≤ areaI i) := by
  have hr : renderPageImages doc = extractEmbeddedImages doc := by
    simp [renderPageImages, h1, h2]
  constructor
  · rw [hr]
    constructor
    · intro hnil p hp i hi
      have hnone : choosePageImage p none (-1) = none := by
        have := List.filterMap_eq_nil_iff.mp hnil p hp
        simpa using this
      obtain ⟨-, hall⟩ := choosePageImage_none p none (-1) hnone
      by_contra hne
      have hle := hall i hi hne
      have : (0 : Int) ≤ areaI i := mul_nonneg (Int.ofNat_nonneg _) (Int.ofNat_nonneg _)
      omega
    · intro hall
      apply List.filterMap_eq_nil_iff.mpr
      intro p hp
      exact choosePageImage_all_empty p (hall p hp) none (-1)
  · intro p hp c hc
    constructor
    · rw [hr]
      exact List.mem_filterMap.mpr ⟨p, hp, hc⟩
    · rcases choosePageImage_spec p none (-1) c hc with ⟨he, -⟩ | ⟨i, hi, hine, hceq, -, hmax⟩
      · exact absurd he (by simp)
      · exact ⟨i, hi, hine, by rw [hceq], hmax⟩

/-- Well-formedness of the OCR cache: cached ids are below the next fresh id
and no id is shared by two distinct keys (true of every reachable state). -/
def OcrStateWF (st : OcrState) : Prop :=
  (∀ e ∈ st.cache, e.2 < st.nextId)
  ∧ (∀ e1 ∈ st.cache, ∀ e2 ∈ st.cache, e1.2 = e2.2 → e1.1 = e2.1)

theorem cacheGet_mem {cache : List (OcrKey × Nat)} {k : OcrKey} {i : Nat}
    (h : cacheGet cache k = some i) : (k, i) ∈ cache := by
  unfold cacheGet at h
  cases hf : cache.find? (fun e => e.1 = k) with
  | none => rw [hf] at h; exact absurd h (by simp)
  | some e =>
    rw [hf] at h
    have hk : e.1 = k := by
      have := List.find?_some hf
      simpa using this
    have hm : e ∈ cache := List.mem_of_find?_eq_some hf
    have hi : e.2 = i := by simpa using h
    have : e = (k, i) := by
      cases e
      simp_all
    rwa [this] at hm

theorem cacheGet_cons_self (c : List (OcrKey × Nat)) (k : OcrKey) (i : Nat) :
    cacheGet ((k, i) :: c) k = some i := by
  simp [cacheGet, List.find?]

theorem cacheGet_cons_ne (c : List (OcrKey × Nat)) {k k' : OcrKey}
    (h : k ≠ k') (i : Nat) : cacheGet ((k, i) :: c) k' = cacheGet c k' := by
  simp [cacheGet, List.find?, h]

/-- The initial cache built by `__init__` is well formed. -/
theorem initOcr_wf (cfg : Config) : OcrStateWF (initOcr cfg).1 := by
  have hsingle : ∀ k : OcrKey, OcrStateWF ⟨[(k, 0)], 1⟩ := by
    intro k
    constructor
    · intro e' he'
      simp only [List.mem_singleton] at he'
      subst he'
      exact Nat.zero_lt_one
    · intro e1 h1 e2 h2 _
      simp only [List.mem_singleton] at h1 h2
      rw [h1, h2]
  have hempty : OcrStateWF ⟨[], 0⟩ := ⟨by simp, by simp⟩
  unfold initOcr
  split
  · dsimp only
    split
    · exact hsingle _
    · exact hempty
  · exact hempty

/-- Resolution preserves cache well-formedness. -/
theorem resolveOcrService_wf {cfg : Config} {dk : Option OcrKey} {st : OcrState}
    {p e k : Option String} {i : Nat} {st' : OcrState}
    (h : resolveOcrService cfg dk st p e k = .ok (i, st')) (hwf : OcrStateWF st) :
    OcrStateWF st' := by
  unfold resolveOcrService at h
  split at h
  · exact absurd h (by simp)
  · rename_i ck hk
    split at h
    · rename_i j hg
      obtain ⟨-, rfl⟩ : j = i ∧ st = st' := by simpa using h
      exact hwf
    · rename_i hg
      obtain ⟨-, hst⟩ :
          st.nextId = i
          ∧ (⟨(ck, st.nextId) :: st.cache, st.nextId + 1⟩ : OcrState) = st' := by
        simpa using h
      subst hst
      obtain ⟨hlt, hinj⟩ := hwf
      constructor
      · intro e' he'
        rcases List.mem_cons.mp he' with rfl | hm
        · exact Nat.lt_succ_self _
        · exact Nat.lt_succ_of_lt (hlt e' hm)
      · intro e1 h1 e2 h2 heq
        rcases List.mem_cons.mp h1 with rfl | hm1 <;>
          rcases List.mem_cons.mp h2 with rfl | hm2
        · rfl
        · exfalso
          have hb := hlt e2 hm2
          have heq' : st.nextId = e2.2 := heq
          omega
        · exfalso
          have hb := hlt e1 hm1
          have heq' : e1.2 = st.nextId := heq
          omega
        · exact hinj e1 hm1 e2 hm2 heq

/-- Claim C8: on a well-formed cache, resolving twice with the same
`(provider, endpoint, credential)` arguments yields the same cached client
instance and leaves the cache unchanged; two resolutions whose resolved cache
keys differ in the credential component yield distinct instances. -/
theorem ocr_client_cache (cfg : Config) (dk : Option OcrKey) (st : OcrState)
    (hwf : OcrStateWF st) (p e k p' e' k' : Option String) :
    (∀ i₁ st₁, resolveOcrService cfg dk st p e k = .ok (i₁, st₁) →
        resolveOcrService cfg dk st₁ p e k = .ok (i₁, st₁))
    ∧ (∀ ck ck' i₁ st₁ i₂ st₂,
        resolveOcrKey cfg dk p e k = .ok ck →
        resolveOcrKey cfg dk p' e' k' = .ok ck' →
        ck.2.2 ≠ ck'.2.2 →
        resolveOcrService cfg dk st p e k = .ok (i₁, st₁) →
        resolveOcrService cfg dk st₁ p' e' k' = .ok (i₂, st₂) →
        i₁ ≠ i₂) := by
  constructor
  · intro i₁ st₁ h
    unfold resolveOcrService at h ⊢
    split at h
    · exact absurd h (by simp)
    · rename_i ck hk
      split at h
      · rename_i j hg
        obtain ⟨rfl, rfl⟩ : j = i₁ ∧ st = st₁ := by simpa using h
        simp [hg]
      · rename_i hg
        obtain ⟨rfl, rfl⟩ :
            st.nextId = i₁
            ∧ (⟨(ck, st.nextId) :: st.cache, st.nextId + 1⟩ : OcrState) = st₁ := by
          simpa using h
        simp [cacheGet_cons_self]
  · intro ck ck' i₁ st₁ i₂ st₂ hk hk' hne h1 h2
    have hkk : ck ≠ ck' := fun hcc => hne (by rw [hcc])
    unfold resolveOcrService at h1 h2
    simp only [hk] at h1
    simp only [hk'] at h2
    split at h1
    · rename_i j hg1
      simp only [Except.ok.injEq, Prod.mk.injEq] at h1
      obtain ⟨hj, hst⟩ := h1
      subst hst
      split at h2
      · rename_i j' hg2
        simp only [Except.ok.injEq, Prod.mk.injEq] at h2
        obtain ⟨hj', -⟩ := h2
        intro hii
        have hjj : ((ck, j) : OcrKey × Nat).2 = ((ck', j') : OcrKey × Nat).2 := by
          show j = j'
          omega
        exact hkk (hwf.2 (ck, j) (cacheGet_mem hg1) (ck', j') (cacheGet_mem hg2) hjj)
      · rename_i hg2
        simp only [Except.ok.injEq, Prod.mk.injEq] at h2
        obtain ⟨hi2, -⟩ := h2
        have hb : j < st.nextId := hwf.1 (ck, j) (cacheGet_mem hg1)
        omega
    · rename_i hg1
      simp only [Except.ok.injEq, Prod.mk.injEq] at h1
      obtain ⟨hi1, hst⟩ := h1
      subst hst
      rw [cacheGet_cons_ne _ hkk] at h2
      split at h2
      · rename_i j' hg2
        simp only [Except.ok.injEq, Prod.mk.injEq] at h2
        obtain ⟨hj', -⟩ := h2
        have hb : j' < st.nextId := hwf.1 (ck', j') (cacheGet_mem hg2)
        omega
      · rename_i hg2
        simp only [Except.ok.injEq, Prod.mk.injEq] at h2
        obtain ⟨hi2, -⟩ := h2
        omega

/-- Claim C8 witness: with an empty cache and explicit endpoint/credential
overrides, the second identical resolution returns the instance cached by the
first, and a resolution with a different credential returns a distinct
instance. -/
theorem ocr_client_cache_witness :
    resolveOcrService ⟨none, none⟩ none
        ⟨[(("azure", "E", "K1"), 0)], 1⟩ none (some "E") (some "K1")
      = .ok (0, ⟨[(("azure", "E", "K1"), 0)], 1⟩)
    ∧ (0 : Nat) ≠ 1 := by
  have hwf : OcrStateWF ⟨[], 0⟩ := ⟨by simp, by simp⟩
  constructor
  · exact (ocr_client_cache ⟨none, none⟩ none ⟨[], 0⟩ hwf
      none (some "E") (some "K1") none (some "E") (some "K2")).1 0
      ⟨[(("azure", "E", "K1"), 0)], 1⟩ rfl
  · exact (ocr_client_cache ⟨none, none⟩ none ⟨[], 0⟩ hwf
      none (some "E") (some "K1") none (some "E") (some "K2")).2
      ("azure", "E", "K1") ("azure", "E", "K2") 0
      ⟨[(("azure", "E", "K1"), 0)], 1⟩ 1
      ⟨[(("azure", "E", "K2"), 1), (("azure", "E", "K1"), 0)], 2⟩
      rfl rfl (by decide) rfl rfl

/-- A provider accepted by the endpoint's `Optional[Literal["api","local"]]`
validation resolves to a registered LLM factory. -/
def ValidProvider (provider : Option String) : Prop :=
  provider = none ∨ provider = some "api" ∨ provider = some "local"

theorem validProvider_contains {provider : Option String} (hp : ValidProvider provider) :
    LLM_PROVIDERS.contains (pyLower (provider.getD "api")) = true := by
  rcases hp with rfl | rfl | rfl <;> rfl

/-- Claim C3: a payload that is empty after trimming is rejected with
`InvalidInput`; a payload that is non-empty after trimming is delegated with
the default origin and yields an `ExtractionResult` with
`text_origin = "input"` whose `raw_text` is the trimmed text. -/
theorem extract_text_endpoint_validation (llm : LlmFun) (payloadText : String)
    (provider : Option String) (args : LlmArgs) (hp : ValidProvider provider) :
    (pyStrip payloadText = "" →
      extractFromTextEndpoint llm payloadText provider args = (.error .invalidInput, []))
    ∧ (pyStrip payloadText ≠ "" →
      ∃ r ev, extractFromTextEndpoint llm payloadText provider args = (.ok r, ev)
        ∧ r.textOrigin = .input ∧ r.rawText = pyStrip payloadText) := by
  constructor
  · intro he
    simp [extractFromTextEndpoint, he]
  · intro hne
    have hkey := validProvider_contains hp
    simp only [extractFromTextEndpoint, extractFromText, hne, if_false,
      ite_false, hkey, if_true, ite_true]
    exact ⟨_, _, rfl, rfl, rfl⟩

/-- Claim C3 witness: the two clauses at concrete payloads `"  "` and
`" hola "`. -/
theorem extract_text_endpoint_validation_witness :
    (extractFromTextEndpoint (fun _ _ _ _ => []) "  " none
        ⟨none, none, none, none, none, none, none⟩ = (.error .invalidInput, []))
    ∧ ∃ r ev, extractFromTextEndpoint (fun _ _ _ _ => []) " hola " none
          ⟨none, none, none, none, none, none, none⟩ = (.ok r, ev)
        ∧ r.textOrigin = .input ∧ r.rawText = pyStrip " hola " := by
  constructor
  · exact (extract_text_endpoint_validation (fun _ _ _ _ => []) "  " none
      ⟨none, none, none, none, none, none, none⟩ (Or.inl rfl)).1 rfl
  · exact (extract_text_endpoint_validation (fun _ _ _ _ => []) " hola " none
      ⟨none, none, none, none, none, none, none⟩ (Or.inl rfl)).2 (by decide)

/-- The `raw_text` carried by a (possibly failed) dynamic return value. -/
def rawTextOf : Except Err PyRet → Option String
  | .ok (.res r) => some r.rawText
  | .ok (.rawStr s) => some s
  | .error _ => none

/-- `extract_from_text` either rejects an unknown provider or succeeds with
the input text itself as `raw_text` and the requested origin. -/
theorem extractFromText_cases (llm : LlmFun) (provider : Option String)
    (text : String) (args : LlmArgs) (vision : Option (List VisionImage))
    (origin : Origin) :
    (LLM_PROVIDERS.contains (pyLower (provider.getD "api")) = false
      ∧ extractFromText llm provider text args vision origin
        = (.error .providerUnavailable, []))
    ∨ (∃ f, extractFromText llm provider text args vision origin
        = (.ok ⟨f, text, origin⟩, [Event.llmCall text vision])) := by
  unfold extractFromText
  by_cases hk : LLM_PROVIDERS.contains (pyLower (provider.getD "api")) = true
  · right
    have hk' : pyLower (provider.getD "api") ∈ LLM_PROVIDERS := by simpa using hk
    refine ⟨llm (pyLower (provider.getD "api")) text
      { args with model := args.model.map pyStrip } vision, ?_⟩
    simp [hk']
  · left
    simp only [Bool.not_eq_true] at hk
    have hk' : pyLower (provider.getD "api") ∉ LLM_PROVIDERS := by
      simpa using hk
    exact ⟨hk, by simp [hk']⟩

/-- Claim C10, part for `extract_from_text`: success always returns the input
text unmodified as `raw_text` (the LLM reply lands only in `fields`). -/
theorem extractFromText_rawText {llm : LlmFun} {provider : Option String}
    {text : String} {args : LlmArgs} {vision : Option (List VisionImage)}
    {origin : Origin} {r : ExtractionResult} {ev : List Event}
    (h : extractFromText llm provider text args vision origin = (.ok r, ev)) :
    r.rawText = text ∧ r.textOrigin = origin := by
  rcases extractFromText_cases llm provider text args vision origin with
    ⟨-, heq⟩ | ⟨f, heq⟩
  · rw [heq] at h
    exact absurd (congrArg Prod.fst h) (by simp)
  · rw [heq] at h
    have h1 : (Except.ok ⟨f, text, origin⟩ : Except Err ExtractionResult) = .ok r :=
      congrArg Prod.fst h
    have h2 : (⟨f, text, origin⟩ : ExtractionResult) = r := by simpa using h1
    rw [← h2]
    exact ⟨rfl, rfl⟩

/-- `extract_from_image` returns the same `raw_text` whatever the LLM client
replies: the reply reaches only `fields`. -/
theorem extractFromImage_llm_irrelevant (ext : Ext) (llm1 llm2 : LlmFun)
    (cfg : Config) (dk : Option OcrKey) (st : OcrState) (filename : String)
    (data : Bytes) (ct : Option String) (provider : Option String)
    (args : LlmArgs) (op oe okk : Option String) :
    rawTextOf (extractFromImage ext llm1 cfg dk st filename data ct provider args op oe okk).1
      = rawTextOf (extractFromImage ext llm2 cfg dk st filename data ct provider args op oe okk).1 := by
  unfold extractFromImage
  rcases hc : extractFromImageCore ext cfg dk st filename data ct op oe okk with
    ⟨res, ev1, st1⟩
  cases res with
  | error e => rfl
  | ok out =>
    cases out with
    | pdfText s => rfl
    | image t v =>
      by_cases hk : LLM_PROVIDERS.contains (pyLower (provider.getD "api")) = true
      · have hk' : pyLower (provider.getD "api") ∈ LLM_PROVIDERS := by simpa using hk
        simp [extractFromText, hk', rawTextOf]
      · simp only [Bool.not_eq_true] at hk
        have hk' : pyLower (provider.getD "api") ∉ LLM_PROVIDERS := by simpa using hk
        simp [extractFromText, hk', rawTextOf]

/-- Claim C10: `extract_from_text` returns `raw_text` equal to its input text
unmodified; the LLM client affects only `fields` (swapping the client never
changes `extract_from_file`'s `raw_text`); and a successful
`extract_from_file` run returns exactly the text (and provenance) its
resolution phase produced. -/
theorem raw_text_unmodified :
    (∀ (llm : LlmFun) provider text args vision origin r ev,
        extractFromText llm provider text args vision origin = (.ok r, ev) →
        r.rawText = text)
    ∧ (∀ ext cfg dk st filename data ct fo uv provider args op oe okk
        (llm1 llm2 : LlmFun),
        rawTextOf (extractFromFile ext llm1 cfg dk st filename data ct fo uv
            provider args op oe okk).1
          = rawTextOf (extractFromFile ext llm2 cfg dk st filename data ct fo uv
            provider args op oe okk).1)
    ∧ (∀ ext (llm : LlmFun) cfg dk st filename data ct fo uv provider args op oe okk
        r ev st',
        IMAGE_EXTENSIONS.contains (pathSuffixLower filename) = false →
        extractFromFile ext llm cfg dk st filename data ct fo uv provider args op oe okk
          = (.ok (.res r), ev, st') →
        ∃ vision ev1,
          extractFromFileCore ext cfg dk st filename data ct fo uv op oe okk
            = (.ok (r.rawText, r.textOrigin, vision), ev1, st')) := by
  refine ⟨?_, ?_, ?_⟩
  · intro llm provider text args vision origin r ev h
    exact (extractFromText_rawText h).1
  · intro ext cfg dk st fn data ct fo uv provider args op oe okk llm1 llm2
    unfold extractFromFile
    by_cases himg : IMAGE_EXTENSIONS.contains (pathSuffixLower fn) = true
    · simp only [himg, if_true, ite_true]
      exact extractFromImage_llm_irrelevant ext llm1 llm2 cfg dk st fn data ct
        provider args op oe okk
    · simp only [himg, Bool.false_eq_true, if_false, ite_false]
      rcases hc : extractFromFileCore ext cfg dk st fn data ct fo uv op oe okk with
        ⟨res, ev1, st1⟩
      cases res with
      | error e => rfl
      | ok triple =>
        obtain ⟨text, origin, vision⟩ := triple
        by_cases hk : LLM_PROVIDERS.contains (pyLower (provider.getD "api")) = true
        · have hk' : pyLower (provider.getD "api") ∈ LLM_PROVIDERS := by simpa using hk
          simp [extractFromText, hk', rawTextOf]
        · simp only [Bool.not_eq_true] at hk
          have hk' : pyLower (provider.getD "api") ∉ LLM_PROVIDERS := by simpa using hk
          simp [extractFromText, hk', rawTextOf]
  · intro ext llm cfg dk st fn data ct fo uv provider args op oe okk r ev st' himg h
    unfold extractFromFile at h
    simp only [himg, Bool.false_eq_true, if_false, ite_false] at h
    rcases hc : extractFromFileCore ext cfg dk st fn data ct fo uv op oe okk with
      ⟨res, ev1, st1⟩
    rw [hc] at h
    cases res with
    | error e => exact absurd h (by simp)
    | ok triple =>
      obtain ⟨text, origin, vision⟩ := triple
      replace h :
          (match extractFromText llm provider text args vision origin with
            | (.error e, ev2) => ((.error e : Except Err PyRet), ev1 ++ ev2, st1)
            | (.ok rr, ev2) => (.ok (.res rr), ev1 ++ ev2, st1))
          = (.ok (.res r), ev, st') := h
      rcases extractFromText_cases llm provider text args vision origin with
        ⟨-, he⟩ | ⟨f, he⟩
      · rw [he] at h
        exact absurd h (by simp)
      · rw [he] at h
        simp only [Prod.mk.injEq, Except.ok.injEq, PyRet.res.injEq] at h
        obtain ⟨hr, -, hst⟩ := h
        refine ⟨vision, ev1, ?_⟩
        rw [← hr, ← hst]

/-- Claim C6: for a `.pdf` file whose direct text read yields non-empty
embedded text and `force_ocr=False`, `extract_from_file` performs no OCR call
and succeeds with `text_origin = "file"` and the embedded text as
`raw_text`. -/
theorem pdf_with_text_no_ocr (ext : Ext) (llm : LlmFun) (cfg : Config)
    (dk : Option OcrKey) (st : OcrState) (filename : String) (data : Bytes)
    (ct : Option String) (useVision : Bool) (provider : Option String)
    (args : LlmArgs) (op oe okk : Option String) (t : String)
    (hsfx : pathSuffixLower filename = ".pdf")
    (hread : ext.pdfReadText data = .ok t) (ht : t ≠ "")
    (hp : ValidProvider provider) :
    (∀ d c, Event.ocrCall d c ∉
      (extractFromFile ext llm cfg dk st filename data ct false useVision
        provider args op oe okk).2.1)
    ∧ ∃ r ev st',
        extractFromFile ext llm cfg dk st filename data ct false useVision
          provider args op oe okk = (.ok (.res r), ev, st')
        ∧ r.textOrigin = .file ∧ r.rawText = t := by
  have hkey : pyLower (provider.getD "api") ∈ LLM_PROVIDERS := by
    rcases hp with rfl | rfl | rfl <;> decide
  have hcore : extractFromFileCore ext cfg dk st filename data ct false useVision op oe okk
      = (.ok (t, .file, fileVision ext ".pdf" useVision data), [], st) := by
    unfold extractFromFileCore
    simp [hsfx, hread, ht, needsOcr, PDF_EXTENSIONS, IMAGE_EXTENSIONS,
      TEXT_EXTENSIONS, XML_EXTENSIONS]
  have hfull : extractFromFile ext llm cfg dk st filename data ct false useVision
      provider args op oe okk
      = (.ok (.res ⟨llm (pyLower (provider.getD "api")) t
            { args with model := args.model.map pyStrip }
            (fileVision ext ".pdf" useVision data), t, .file⟩),
          [Event.llmCall t (fileVision ext ".pdf" useVision data)], st) := by
    unfold extractFromFile
    simp [hsfx, hcore, extractFromText, hkey, PDF_EXTENSIONS, IMAGE_EXTENSIONS,
      TEXT_EXTENSIONS, XML_EXTENSIONS]
  constructor
  · intro d c
    simp [hfull]
  · exact ⟨_, _, _, hfull, rfl, rfl⟩

/-- `_extract_text_from_pdf_with_ocr` always starts with a direct OCR call
over the PDF bytes, whatever its outcome. -/
theorem extractTextFromPdfWithOcr_calls_ocr (ext : Ext) (data : Bytes) :
    Event.ocrCall data (some "application/pdf") ∈
      (extractTextFromPdfWithOcr ext data).2 := by
  simp only [extractTextFromPdfWithOcr]
  split
  · exact List.mem_singleton_self _
  · split
    · simp
    · split <;> simp

/-- Outcome of the OCR branch of `extract_from_file`'s resolution phase, as a
function of the OCR pipeline result. -/
def coreOut (tr : Except Err String) (vis : Option (List VisionImage))
    (evp : List Event) (st1 : OcrState) :
    Except Err (String × Origin × Option (List VisionImage)) × List Event × OcrState :=
  match tr with
  | .error e => (.error e, evp, st1)
  | .ok t1 => (.ok (t1, .ocr, vis), evp, st1)

/-- Claim C5: for a `.pdf` file whose direct read yields no text,
`extract_from_file` (with the default Azure client configured and no per-call
OCR overrides) invokes the OCR client for both values of `force_ocr`, and any
successful outcome carries `text_origin = "ocr"`. -/
theorem pdf_empty_text_forces_ocr (ext : Ext) (llm : LlmFun) (cfg : Config)
    (E K : String) (st : OcrState) (filename : String) (data : Bytes)
    (ct : Option String) (forceOcr useVision : Bool) (provider : Option String)
    (args : LlmArgs)
    (hsfx : pathSuffixLower filename = ".pdf")
    (hread : ext.pdfReadText data = .ok "")
    (hE : E ≠ "") (hK : K ≠ "") :
    Event.ocrCall data (some "application/pdf") ∈
      (extractFromFile ext llm cfg (some ("azure", E, K)) st filename data ct
        forceOcr useVision provider args none none none).2.1
    ∧ ∀ r ev st',
        extractFromFile ext llm cfg (some ("azure", E, K)) st filename data ct
          forceOcr useVision provider args none none none = (.ok (.res r), ev, st')
        → r.textOrigin = .ocr := by
  have h0 : pyLower (pyStrip ((none : Option String).getD "")) = "" := rfl
  have hkeyres : resolveOcrKey cfg (some ("azure", E, K)) none none none
      = .ok ("azure", E, K) := by
    unfold resolveOcrKey
    rw [h0]
    simp [truthy, orElseStr, hE, hK]
  have hres : ∃ i st1,
      resolveOcrService cfg (some ("azure", E, K)) st none none none = .ok (i, st1) := by
    unfold resolveOcrService
    rw [hkeyres]
    cases hg : cacheGet st.cache ("azure", E, K) with
    | some i => exact ⟨i, st, by simp [hg]⟩
    | none =>
      exact ⟨st.nextId, ⟨(("azure", E, K), st.nextId) :: st.cache, st.nextId + 1⟩,
        by simp [hg]⟩
  obtain ⟨i, st1, hres⟩ := hres
  rcases hpdf : extractTextFromPdfWithOcr ext data with ⟨tr, evp⟩
  have hmem : Event.ocrCall data (some "application/pdf") ∈ evp := by
    have := extractTextFromPdfWithOcr_calls_ocr ext data
    rwa [hpdf] at this
  have hetf : ∀ b, extractTextFromFile ext filename data ct b = (tr, evp) := by
    intro b
    unfold extractTextFromFile
    cases b with
    | true => simp [hsfx, hpdf, PDF_EXTENSIONS, TEXT_EXTENSIONS, XML_EXTENSIONS]
    | false => simp [hsfx, hread, hpdf, PDF_EXTENSIONS, TEXT_EXTENSIONS, XML_EXTENSIONS]
  have hcore : extractFromFileCore ext cfg (some ("azure", E, K)) st filename data ct
      forceOcr useVision none none none
      = coreOut tr (fileVision ext ".pdf" useVision data) evp st1 := by
    unfold extractFromFileCore
    cases forceOcr with
    | true =>
      simp [hsfx, hres, hetf true, needsOcr, coreOut, PDF_EXTENSIONS, IMAGE_EXTENSIONS,
        TEXT_EXTENSIONS, XML_EXTENSIONS]
      cases tr <;> simp
    | false =>
      simp [hsfx, hread, hres, hetf false, needsOcr, coreOut, PDF_EXTENSIONS,
        IMAGE_EXTENSIONS, TEXT_EXTENSIONS, XML_EXTENSIONS]
      cases tr <;> simp
  have himg : IMAGE_EXTENSIONS.contains (pathSuffixLower filename) = false := by
    rw [hsfx]; rfl
  constructor
  · unfold extractFromFile
    simp only [himg, Bool.false_eq_true, if_false, ite_false, hcore]
    cases tr with
    | error e => simpa [coreOut] using hmem
    | ok t1 =>
      rcases extractFromText_cases llm provider t1 args
          (fileVision ext ".pdf" useVision data) .ocr with ⟨-, he⟩ | ⟨f, he⟩ <;>
        simp [coreOut, he, hmem]
  · intro r ev st' h
    unfold extractFromFile at h
    simp only [himg, Bool.false_eq_true, if_false, ite_false, hcore] at h
    cases tr with
    | error e => exact absurd h (by simp [coreOut])
    | ok t1 =>
      replace h :
          (match extractFromText llm provider t1 args
              (fileVision ext ".pdf" useVision data) Origin.ocr with
            | (.error e, ev2) => ((.error e : Except Err PyRet), evp ++ ev2, st1)
            | (.ok rr, ev2) => (.ok (.res rr), evp ++ ev2, st1))
          = (.ok (.res r), ev, st') := h
      rcases extractFromText_cases llm provider t1 args
          (fileVision ext ".pdf" useVision data) .ocr with ⟨-, he⟩ | ⟨f, he⟩
      · rw [he] at h
        exact absurd h (by simp)
      · rw [he] at h
        simp only [Prod.mk.injEq, Except.ok.injEq, PyRet.res.injEq] at h
        obtain ⟨hr, -, -⟩ := h
        rw [← hr]

/-- Claim C4: for `.xml` / `.json` files, `extract_from_file` never calls the
OCR client's `extract_text` and never attaches vision images to the LLM call,
for every combination of `force_ocr` and `use_vision`, every declared content
type and every file content (PyPDF2 cannot succeed on empty bytes, which
covers the empty-file corner routed through the PDF reader). -/
theorem structured_formats_never_ocr (ext : Ext) (llm : LlmFun) (cfg : Config)
    (dk : Option OcrKey) (st : OcrState) (filename : String) (data : Bytes)
    (ct : Option String) (forceOcr useVision : Bool) (provider : Option String)
    (args : LlmArgs) (op oe okk : Option String)
    (hsfx : pathSuffixLower filename = ".xml" ∨ pathSuffixLower filename = ".json")
    (hempty : ∀ s, ext.pdfReadText [] ≠ .ok s) :
    (∀ d c, Event.ocrCall d c ∉
      (extractFromFile ext llm cfg dk st filename data ct forceOcr useVision
        provider args op oe okk).2.1)
    ∧ (∀ t v, Event.llmCall t v ∈
        (extractFromFile ext llm cfg dk st filename data ct forceOcr useVision
          provider args op oe okk).2.1
      → v = none) := by
  have himgB : IMAGE_EXTENSIONS.contains (pathSuffixLower filename) = false := by
    rcases hsfx with hs | hs <;> rw [hs] <;> rfl
  have hpdfB : PDF_EXTENSIONS.contains (pathSuffixLower filename) = false := by
    rcases hsfx with hs | hs <;> rw [hs] <;> rfl
  have himgP : pathSuffixLower filename ∉ IMAGE_EXTENSIONS := by
    rcases hsfx with hs | hs <;> rw [hs] <;> decide
  have hpdfP : pathSuffixLower filename ∉ PDF_EXTENSIONS := by
    rcases hsfx with hs | hs <;> rw [hs] <;> decide
  have htxtP : pathSuffixLower filename ∈ TEXT_EXTENSIONS
      ∨ pathSuffixLower filename ∈ XML_EXTENSIONS := by
    rcases hsfx with hs | hs <;> rw [hs] <;> decide
  have hfinal : ∀ res st1,
      extractFromFileCore ext cfg dk st filename data ct forceOcr useVision op oe okk
        = (res, [], st1) →
      (∀ t0 o0 v0, res = .ok (t0, o0, v0) → v0 = none) →
      (∀ d c, Event.ocrCall d c ∉
        (extractFromFile ext llm cfg dk st filename data ct forceOcr useVision
          provider args op oe okk).2.1)
      ∧ (∀ t v, Event.llmCall t v ∈
          (extractFromFile ext llm cfg dk st filename data ct forceOcr useVision
            provider args op oe okk).2.1
        → v = none) := by
    intro res st1 hcore hvis
    unfold extractFromFile
    simp only [himgB, Bool.false_eq_true, if_false, ite_false, hcore]
    cases res with
    | error e => simp
    | ok triple =>
      obtain ⟨t0, o0, v0⟩ := triple
      have hv0 : v0 = none := hvis t0 o0 v0 rfl
      subst hv0
      rcases extractFromText_cases llm provider t0 args none o0 with ⟨-, he⟩ | ⟨f, he⟩ <;>
        simp [he]
  have hnilstr : ([] : List Char).asString = "" := rfl
  by_cases hd : data = []
  · subst hd
    cases hr : resolveOcrService cfg dk st op oe okk with
    | error e =>
      refine hfinal (.error e) st ?_ (by simp)
      unfold extractFromFileCore
      simp [himgP, hpdfP, htxtP, needsOcr, hr, decodeUtf8Replace, hnilstr]
    | ok pair =>
      obtain ⟨i, st1⟩ := pair
      by_cases hnct : pyLower (ct.getD "") = "application/pdf"
      · cases hpd : ext.pdfReadText [] with
        | ok s => exact absurd hpd (hempty s)
        | error u =>
          refine hfinal (.error .pdfReadError) st1 ?_ (by simp)
          unfold extractFromFileCore extractTextFromFile
          simp [himgP, hpdfP, htxtP, needsOcr, hr, hnct, hpd, decodeUtf8Replace, hnilstr]
      · refine hfinal (.ok ("", .ocr, none)) st1 ?_ ?_
        · unfold extractFromFileCore extractTextFromFile
          simp [himgP, hpdfP, htxtP, needsOcr, hr, hnct, decodeUtf8Replace,
            fileVision, hnilstr]
        · rintro t0 o0 v0 h0
          simp only [Except.ok.injEq, Prod.mk.injEq] at h0
          exact h0.2.2.symm
  · have hdec : decodeUtf8Replace data ≠ "" := fun hcon =>
      hd ((decodeUtf8Replace_eq_empty_iff data).mp hcon)
    refine hfinal (.ok (decodeUtf8Replace data, .file, none)) st ?_ ?_
    · unfold extractFromFileCore
      simp [himgP, hpdfP, htxtP, needsOcr, hdec, fileVision]
    · rintro t0 o0 v0 h0
      simp only [Except.ok.injEq, Prod.mk.injEq] at h0
      exact h0.2.2.symm

/-- Claim C1: contrary to the claim, `extract_from_image` on a PDF performs
the OCR (directly over the PDF bytes, page rendering only as fallback) but
returns the bare OCR text string instead of an `ExtractionResult` — the
function's own return annotation and the endpoint's `result.to_payload()`
both expect the latter — and never reaches the LLM, so no `text_origin`
`"ocr"` is produced. -/
theorem image_pdf_returns_raw_string (ext : Ext) (llm : LlmFun) (cfg : Config)
    (dk : Option OcrKey) (st : OcrState) (filename : String) (data : Bytes)
    (ct : Option String) (provider : Option String) (args : LlmArgs)
    (op oe okk : Option String) (i : Nat) (st1 : OcrState) (T : String)
    (hres : resolveOcrService cfg dk st op oe okk = .ok (i, st1))
    (hsfx : pathSuffixLower filename = ".pdf")
    (hocr : ext.ocrExtractText data (some "application/pdf") = T) (hT : T ≠ "") :
    extractFromImage ext llm cfg dk st filename data ct provider args op oe okk
      = (.ok (.rawStr T), [Event.ocrCall data (some "application/pdf")], st1) := by
  have hpdfocr : extractTextFromPdfWithOcr ext data
      = (.ok T, [Event.ocrCall data (some "application/pdf")]) := by
    unfold extractTextFromPdfWithOcr
    simp [hocr, hT]
  unfold extractFromImage extractFromImageCore
  simp [hres, hsfx, hpdfocr, PDF_EXTENSIONS]

/-- Claim C7 witness: a document whose renderers both fail and whose first
page holds two embedded images (areas 6 and 100). -/
theorem render_page_images_fallback_witness :
    ((renderPageImages ⟨[], [], [[⟨[1], 2, 3, "png"⟩, ⟨[2, 2], 10, 10, ""⟩], []]⟩ = []
      ↔ ∀ p ∈ ([[⟨[1], 2, 3, "png"⟩, ⟨[2, 2], 10, 10, ""⟩], []] : List (List EmbImage)),
          ∀ i ∈ p, i.data = [])
    ∧ ∀ p ∈ ([[⟨[1], 2, 3, "png"⟩, ⟨[2, 2], 10, 10, ""⟩], []] : List (List EmbImage)),
        ∀ c, choosePageImage p none (-1) = some c →
        c ∈ renderPageImages ⟨[], [], [[⟨[1], 2, 3, "png"⟩, ⟨[2, 2], 10, 10, ""⟩], []]⟩
        ∧ ∃ i ∈ p, i.data ≠ [] ∧ c.1 = i.data
            ∧ ∀ j ∈ p, j.data ≠ [] → areaI j ≤ areaI i) :=
  render_page_images_fallback ⟨[], [], [[⟨[1], 2, 3, "png"⟩, ⟨[2, 2], 10, 10, ""⟩], []]⟩
    rfl rfl

/-- Claim C10 witness: the `raw_text` clauses at a concrete text run and at a
concrete `.json` file run. -/
theorem raw_text_unmodified_witness :
    ((⟨[], "hola", .input⟩ : ExtractionResult).rawText = "hola")
    ∧ ∃ vision ev1,
        extractFromFileCore
          ⟨fun _ => .ok "", fun _ => [], fun _ _ => "", fun _ => none, fun _ => ""⟩
          ⟨none, none⟩ none ⟨[], 0⟩ "a.json" [104] none false false none none none
        = (.ok ((⟨[], "h", .file⟩ : ExtractionResult).rawText,
            (⟨[], "h", .file⟩ : ExtractionResult).textOrigin, vision), ev1, ⟨[], 0⟩) := by
  constructor
  · exact raw_text_unmodified.1 (fun _ _ _ _ => []) none "hola"
      ⟨none, none, none, none, none, none, none⟩ none .input
      ⟨[], "hola", .input⟩ [Event.llmCall "hola" none] rfl
  · exact raw_text_unmodified.2.2
      ⟨fun _ => .ok "", fun _ => [], fun _ _ => "", fun _ => none, fun _ => ""⟩
      (fun _ _ _ _ => []) ⟨none, none⟩ none ⟨[], 0⟩ "a.json" [104] none false false
      none ⟨none, none, none, none, none, none, none⟩ none none none
      ⟨[], "h", .file⟩ [Event.llmCall "h" none] ⟨[], 0⟩ rfl rfl

/-- Claim C6 witness: a `.pdf` with embedded text `"TEXTO"` and
`force_ocr=False`. -/
theorem pdf_with_text_no_ocr_witness :
    (∀ d c, Event.ocrCall d c ∉
      (extractFromFile
        ⟨fun _ => .ok "TEXTO", fun _ => [], fun _ _ => "", fun _ => none, fun _ => ""⟩
        (fun _ _ _ _ => []) ⟨none, none⟩ none ⟨[], 0⟩ "doc.pdf" [7] none false false
        none ⟨none, none, none, none, none, none, none⟩ none none none).2.1)
    ∧ ∃ r ev st',
        extractFromFile
          ⟨fun _ => .ok "TEXTO", fun _ => [], fun _ _ => "", fun _ => none, fun _ => ""⟩
          (fun _ _ _ _ => []) ⟨none, none⟩ none ⟨[], 0⟩ "doc.pdf" [7] none false false
          none ⟨none, none, none, none, none, none, none⟩ none none none
          = (.ok (.res r), ev, st')
        ∧ r.textOrigin = .file ∧ r.rawText = "TEXTO" :=
  pdf_with_text_no_ocr
    ⟨fun _ => .ok "TEXTO", fun _ => [], fun _ _ => "", fun _ => none, fun _ => ""⟩
    (fun _ _ _ _ => []) ⟨none, none⟩ none ⟨[], 0⟩ "doc.pdf" [7] none false
    none ⟨none, none, none, none, none, none, none⟩ none none none "TEXTO"
    rfl rfl (by decide) (Or.inl rfl)

/-- Claim C5 witness: a `.pdf` whose direct read is empty, with the default
Azure client configured. -/
theorem pdf_empty_text_forces_ocr_witness :
    Event.ocrCall [7] (some "application/pdf") ∈
      (extractFromFile
        ⟨fun _ => .ok "", fun _ => [], fun _ _ => "OCR", fun _ => none, fun _ => ""⟩
        (fun _ _ _ _ => []) ⟨none, none⟩ (some ("azure", "E", "K")) ⟨[], 0⟩
        "doc.pdf" [7] none false false none
        ⟨none, none, none, none, none, none, none⟩ none none none).2.1
    ∧ ∀ r ev st',
        extractFromFile
          ⟨fun _ => .ok "", fun _ => [], fun _ _ => "OCR", fun _ => none, fun _ => ""⟩
          (fun _ _ _ _ => []) ⟨none, none⟩ (some ("azure", "E", "K")) ⟨[], 0⟩
          "doc.pdf" [7] none false false none
          ⟨none, none, none, none, none, none, none⟩ none none none
          = (.ok (.res r), ev, st')
        → r.textOrigin = .ocr :=
  pdf_empty_text_forces_ocr
    ⟨fun _ => .ok "", fun _ => [], fun _ _ => "OCR", fun _ => none, fun _ => ""⟩
    (fun _ _ _ _ => []) ⟨none, none⟩ "E" "K" ⟨[], 0⟩ "doc.pdf" [7] none false false
    none ⟨none, none, none, none, none, none, none⟩
    rfl rfl (by decide) (by decide)

/-- Claim C4 witness: a `.json` file with both `force_ocr=True` and
`use_vision=True`. -/
theorem structured_formats_never_ocr_witness :
    (∀ d c, Event.ocrCall d c ∉
      (extractFromFile
        ⟨fun d => if d = [] then .error () else .ok "", fun _ => [],
          fun _ _ => "", fun _ => none, fun _ => ""⟩
        (fun _ _ _ _ => []) ⟨none, none⟩ none ⟨[], 0⟩ "factura.json" [104] none
        true true none ⟨none, none, none, none, none, none, none⟩ none none none).2.1)
    ∧ ∀ t v, Event.llmCall t v ∈
        (extractFromFile
          ⟨fun d => if d = [] then .error () else .ok "", fun _ => [],
            fun _ _ => "", fun _ => none, fun _ => ""⟩
          (fun _ _ _ _ => []) ⟨none, none⟩ none ⟨[], 0⟩ "factura.json" [104] none
          true true none ⟨none, none, none, none, none, none, none⟩ none none none).2.1
      → v = none :=
  structured_formats_never_ocr
    ⟨fun d => if d = [] then .error () else .ok "", fun _ => [],
      fun _ _ => "", fun _ => none, fun _ => ""⟩
    (fun _ _ _ _ => []) ⟨none, none⟩ none ⟨[], 0⟩ "factura.json" [104] none
    true true none ⟨none, none, none, none, none, none, none⟩ none none none
    (Or.inr rfl) (fun s h => by simp at h)

/-- Claim C1 witness: a `.pdf` routed to the image entry point with a cached
Azure client; the call returns a bare string, never an `ExtractionResult`. -/
theorem image_pdf_returns_raw_string_witness :
    extractFromImage
      ⟨fun _ => .ok "", fun _ => [], fun _ _ => "TEXTO", fun _ => none, fun _ => ""⟩
      (fun _ _ _ _ => []) ⟨none, none⟩ (some ("azure", "E", "K"))
      ⟨[(("azure", "E", "K"), 0)], 1⟩ "doc.pdf" [7] none none
      ⟨none, none, none, none, none, none, none⟩ none none none
    = (.ok (.rawStr "TEXTO"), [Event.ocrCall [7] (some "application/pdf")],
        ⟨[(("azure", "E", "K"), 0)], 1⟩) :=
  image_pdf_returns_raw_string
    ⟨fun _ => .ok "", fun _ => [], fun _ _ => "TEXTO", fun _ => none, fun _ => ""⟩
    (fun _ _ _ _ => []) ⟨none, none⟩ (some ("azure", "E", "K"))
    ⟨[(("azure", "E", "K"), 0)], 1⟩ "doc.pdf" [7] none none
    ⟨none, none, none, none, none, none, none⟩ none none none 0
    ⟨[(("azure", "E", "K"), 0)], 1⟩ "TEXTO" rfl rfl rfl (by decide)

end Verifactura
